import Mathlib

/-!
# Verification of the server-log-analysis core

Shallow embedding of `src/server_log_dashboard.py` (log-line parsing, dataset
construction, filtering, hourly bucketing, summary metrics) and of
`src/test_file_generator.py` (synthetic log-line generation and volume
shaping), together with proofs settling the frozen claims about them.

Conventions of the embedding:
* Python strings are modelled as `List Char` (`Str`).
* The regex character classes `\s`, `\w`, `\d` and `str.strip()` are modelled
  at their ASCII meaning; every input appearing in the repository is ASCII.
* Randomness is modelled by passing the sampled values as parameters: a
  function such as `generate_log_entry` receives the values that the Python
  code draws from `random` / `numpy.random` / `faker`, constrained in the
  theorems exactly by the ranges those samplers can produce.
* The `user_agents` classification library is an external dependency; the
  derived `browser` / `os` / `device` fields are therefore not part of the
  record model.  No claim refers to them.
* A Python function that can raise is given an explicit error value
  (`ParseOutcome.raised`, `Except.error`).
-/

abbrev Str := List Char

/-- ASCII fragment of Python's regex class `\s` (and of `str.strip()`'s
default whitespace set). -/
def pyIsSpace (c : Char) : Bool :=
  c == ' ' || c == '\t' || c == '\n' || c == '\r' || c == '\x0b' || c == '\x0c'

/-- `\S`: complement of `\s`. -/
def nonSpace (c : Char) : Bool := !(pyIsSpace c)

/-- ASCII fragment of Python's regex class `\w`. -/
def pyIsWord (c : Char) : Bool := c.isAlpha || c.isDigit || c == '_'

/-- The character class `[\w:/]` used by the timestamp group of the log regex. -/
def tsClass (c : Char) : Bool := pyIsWord c || c == ':' || c == '/'

/-- Consume one expected literal character. -/
def expectC (c : Char) : Str → Option Str
  | x :: xs => if x = c then some xs else none
  | [] => none

/-- `(\S+)` followed by a literal space: the token-reading step of the log
regex.  The maximal non-whitespace run is taken (the run's characters are
disjoint from the following literal, so the regex engine's greedy choice is
deterministic here) and the next character must be a space. -/
def splitTok (cs : Str) : Option (Str × Str) :=
  let t := cs.takeWhile nonSpace
  match cs.dropWhile nonSpace with
  | ' ' :: r => if t.isEmpty then none else some (t, r)
  | _ => none

/-- The timestamp group `([\w:/]+\s[+\-]\d{4})` of the log regex: a maximal
run of `[\w:/]` characters (disjoint from `\s`, hence deterministic), one
whitespace character, a sign and exactly four digits.  Returns the full text
of the group and the rest of the input. -/
def splitTsGroup (cs : Str) : Option (Str × Str) :=
  let w := cs.takeWhile tsClass
  if w.isEmpty then none else
  match cs.dropWhile tsClass with
  | s :: sg :: d1 :: d2 :: d3 :: d4 :: r =>
    if pyIsSpace s && (sg == '+' || sg == '-')
        && d1.isDigit && d2.isDigit && d3.isDigit && d4.isDigit then
      some (w ++ [s, sg, d1, d2, d3, d4], r)
    else none
  | _ => none

/-- `(\d+)`: maximal non-empty digit run. -/
def digitsSplit (cs : Str) : Option (Str × Str) :=
  let d := cs.takeWhile Char.isDigit
  if d.isEmpty then none else some (d, cs.dropWhile Char.isDigit)

/-- `(\d{3})`: exactly three digits. -/
def exact3Digits : Str → Option (Str × Str)
  | a :: b :: c :: r =>
    if a.isDigit && b.isDigit && c.isDigit then some ([a, b, c], r) else none
  | _ => none

/-- `([^"]*)"`: everything up to the first double quote (which is consumed).
Fails when no quote follows, as the regex would. -/
def quotedSplit (cs : Str) : Option (Str × Str) :=
  match cs.dropWhile (fun c => c != '"') with
  | '"' :: r => some (cs.takeWhile (fun c => c != '"'), r)
  | _ => none

/-- All ways to split a string at one of its double quotes, longest first
part first.  This is the backtracking order in which the regex engine tries
to place the literal `"` that follows the greedy `(\S+)` protocol group. -/
def quoteSplits : Str → List (Str × Str)
  | [] => []
  | c :: cs =>
    (quoteSplits cs).map (fun pq => (c :: pq.1, pq.2))
      ++ (if c = '"' then [(([] : Str), cs)] else [])

/-- Return the first `some` produced by `f` along the list. -/
def firstSome {α β : Type} (f : α → Option β) : List α → Option β
  | [] => none
  | a :: rest =>
    match f a with
    | some b => some b
    | none => firstSome f rest

/-- The regex groups of one log line, in source order:
`ip, remote_log_name, user_id, timestamp text, method, api, protocol,
status, bytes, referrer, user agent, response time`. -/
structure Groups where
  ip : Str
  rln : Str
  uid : Str
  ts : Str
  method : Str
  api : Str
  protocol : Str
  status : Str
  bytes : Str
  referrer : Str
  ua : Str
  rtime : Str
deriving DecidableEq, Repr

/-- The tail of the pattern after the protocol's closing quote:
` (\d{3}) (\d+) "([^"]*)" "([^"]*)" (\d+)`.  Every greedy token here is
followed by a character outside its class, so no backtracking can occur. -/
def matchTail (cs : Str) : Option ((Str × Str × Str × Str × Str) × Str) :=
  match expectC ' ' cs with
  | none => none
  | some cs =>
  match exact3Digits cs with
  | none => none
  | some (st, cs) =>
  match expectC ' ' cs with
  | none => none
  | some cs =>
  match digitsSplit cs with
  | none => none
  | some (bys, cs) =>
  match expectC ' ' cs with
  | none => none
  | some cs =>
  match expectC '"' cs with
  | none => none
  | some cs =>
  match quotedSplit cs with
  | none => none
  | some (ref, cs) =>
  match expectC ' ' cs with
  | none => none
  | some cs =>
  match expectC '"' cs with
  | none => none
  | some cs =>
  match quotedSplit cs with
  | none => none
  | some (ua, cs) =>
  match expectC ' ' cs with
  | none => none
  | some cs =>
  match digitsSplit cs with
  | none => none
  | some (rt, cs) => some ((st, bys, ref, ua, rt), cs)

/-- The protocol group `(\S+)"` followed by the tail of the pattern.  The
greedy `\S+` and the literal quote interact: the quote must sit inside the
maximal non-whitespace run, and the engine tries the split points from the
longest protocol candidate down (`quoteSplits`). -/
def matchProtocol (cs : Str) : Option ((Str × (Str × Str × Str × Str × Str)) × Str) :=
  let run := cs.takeWhile nonSpace
  let rest := cs.dropWhile nonSpace
  firstSome
    (fun pq =>
      if pq.1.isEmpty then none
      else (matchTail (pq.2 ++ rest)).map (fun tr => ((pq.1, tr.1), tr.2)))
    (quoteSplits run)

/-- `re.match` of the full pattern
`(\S+) (\S+) (\S+) \[([\w:/]+\s[+\-]\d{4})\] "(\S+) (\S+) (\S+)" (\d{3}) (\d+) "([^"]*)" "([^"]*)" (\d+)`
against the line: anchored at the start only; returns the captured groups and
the unconsumed rest of the line. -/
def reMatchLine (cs : Str) : Option (Groups × Str) :=
  match splitTok cs with
  | none => none
  | some (ip, cs) =>
  match splitTok cs with
  | none => none
  | some (rln, cs) =>
  match splitTok cs with
  | none => none
  | some (uid, cs) =>
  match expectC '[' cs with
  | none => none
  | some cs =>
  match splitTsGroup cs with
  | none => none
  | some (ts, cs) =>
  match expectC ']' cs with
  | none => none
  | some cs =>
  match expectC ' ' cs with
  | none => none
  | some cs =>
  match expectC '"' cs with
  | none => none
  | some cs =>
  match splitTok cs with
  | none => none
  | some (m, cs) =>
  match splitTok cs with
  | none => none
  | some (a, cs) =>
  match matchProtocol cs with
  | none => none
  | some ((pr, tg), cs) =>
    some (⟨ip, rln, uid, ts, m, a, pr, tg.1, tg.2.1, tg.2.2.1, tg.2.2.2.1, tg.2.2.2.2⟩, cs)

/-! ## `datetime.strptime(s, "%d/%b/%Y:%H:%M:%S %z")`

Modelled after CPython's `_strptime`: each directive is compiled to a regex
fragment (`%d` to `3[01]|[12]\d|0[1-9]|[1-9]`, `%b` to the case-insensitive
month abbreviations, `%Y` to `\d{4}`, `%H` to `2[0-3]|[0-1]\d|\d`,
`%M` to `[0-5]\d|\d`, `%S` to `6[0-1]|[0-5]\d|\d`, a literal space to `\s+`,
`%z` to `[+-]\d\d:?\d\d(:?\d\d)?|Z`), the regex must consume the whole
string, and the resulting `datetime` construction additionally validates the
calendar (day against month length, seconds below 60, year at least 1,
offset strictly below 24 hours).  Any failure raises `ValueError`, modelled
as `none`.  In each two-digit-or-one-digit alternation the two-digit branch
forces the next character to be a digit while the following literal of this
format is `/`, `:` or whitespace, so the regex engine's alternation order
is deterministic here and is modelled by an if-chain. -/

structure PyDateTime where
  year : Nat
  month : Nat
  day : Nat
  hour : Nat
  minute : Nat
  second : Nat
  /-- UTC offset of the attached `timezone`, in seconds. -/
  offSeconds : Int
deriving DecidableEq, Repr

def digitVal (c : Char) : Nat := c.toNat - 48

/-- `%d`: `3[01]|[12]\d|0[1-9]|[1-9]`. -/
def parseDay : Str → Option (Nat × Str)
  | '3' :: c :: r =>
    if c = '0' then some (30, r)
    else if c = '1' then some (31, r)
    else some (3, c :: r)
  | c :: d :: r =>
    if (c = '1' || c = '2') && d.isDigit then some (digitVal c * 10 + digitVal d, r)
    else if c = '0' && (d.isDigit && d != '0') then some (digitVal d, r)
    else if c.isDigit && c != '0' then some (digitVal c, d :: r)
    else none
  | [c] => if c.isDigit && c != '0' then some (digitVal c, []) else none
  | [] => none

/-- `%b`: the C-locale month abbreviations, case-insensitively. -/
def monthNum (a b c : Char) : Option Nat :=
  let l := [a.toLower, b.toLower, c.toLower]
  if l = [ 'j', 'a', 'n'] then some 1
  else if l = [ 'f', 'e', 'b'] then some 2
  else if l = [ 'm', 'a', 'r'] then some 3
  else if l = [ 'a', 'p', 'r'] then some 4
  else if l = [ 'm', 'a', 'y'] then some 5
  else if l = [ 'j', 'u', 'n'] then some 6
  else if l = [ 'j', 'u', 'l'] then some 7
  else if l = [ 'a', 'u', 'g'] then some 8
  else if l = [ 's', 'e', 'p'] then some 9
  else if l = [ 'o', 'c', 't'] then some 10
  else if l = [ 'n', 'o', 'v'] then some 11
  else if l = [ 'd', 'e', 'c'] then some 12
  else none

def parseMonth : Str → Option (Nat × Str)
  | a :: b :: c :: r => (monthNum a b c).map (fun n => (n, r))
  | _ => none

/-- `%Y`: exactly four digits. -/
def parseYear4 : Str → Option (Nat × Str)
  | a :: b :: c :: d :: r =>
    if a.isDigit && b.isDigit && c.isDigit && d.isDigit then
      some (((digitVal a * 10 + digitVal b) * 10 + digitVal c) * 10 + digitVal d, r)
    else none
  | _ => none

/-- `%H`: `2[0-3]|[0-1]\d|\d`. -/
def parseHour : Str → Option (Nat × Str)
  | '2' :: c :: r =>
    if c = '0' || c = '1' || c = '2' || c = '3' then some (20 + digitVal c, r)
    else some (2, c :: r)
  | c :: d :: r =>
    if (c = '0' || c = '1') && d.isDigit then some (digitVal c * 10 + digitVal d, r)
    else if c.isDigit then some (digitVal c, d :: r)
    else none
  | [c] => if c.isDigit then some (digitVal c, []) else none
  | [] => none

/-- `%M`: `[0-5]\d|\d`. -/
def parseMin : Str → Option (Nat × Str)
  | c :: d :: r =>
    if (c.isDigit && digitVal c ≤ 5) && d.isDigit then some (digitVal c * 10 + digitVal d, r)
    else if c.isDigit then some (digitVal c, d :: r)
    else none
  | [c] => if c.isDigit then some (digitVal c, []) else none
  | [] => none

/-- `%S`: `6[0-1]|[0-5]\d|\d`. -/
def parseSec : Str → Option (Nat × Str)
  | '6' :: c :: r =>
    if c = '0' then some (60, r)
    else if c = '1' then some (61, r)
    else some (6, c :: r)
  | c :: d :: r =>
    if (c.isDigit && digitVal c ≤ 5) && d.isDigit then some (digitVal c * 10 + digitVal d, r)
    else if c.isDigit then some (digitVal c, d :: r)
    else none
  | [c] => if c.isDigit then some (digitVal c, []) else none
  | [] => none

/-- `%z`, restricted to its `[+-]\d\d:?\d\d(:?\d\d)?` and `Z` forms (the
fractional-second extension never survives the end-of-string check on the
inputs this format can receive).  Returns the offset in seconds. -/
def parseZOff : Str → Option (Int × Str)
  | 'Z' :: r => some (0, r)
  | sg :: h1 :: h2 :: rest =>
    if (sg = '+' || sg = '-') && h1.isDigit && h2.isDigit then
      let hh : Int := Int.ofNat (digitVal h1 * 10 + digitVal h2)
      let sign : Int := if sg = '-' then -1 else 1
      let afterMin : Str → Option (Int × Str) := fun r2 =>
        match r2 with
        | ':' :: s1 :: s2 :: r3 =>
          if s1.isDigit && s2.isDigit then
            some (Int.ofNat (digitVal s1 * 10 + digitVal s2), r3)
          else none
        | s1 :: s2 :: r3 =>
          if s1.isDigit && s2.isDigit then
            some (Int.ofNat (digitVal s1 * 10 + digitVal s2), r3)
          else none
        | _ => none
      match rest with
      | ':' :: m1 :: m2 :: r2 =>
        if m1.isDigit && m2.isDigit then
          let mm : Int := Int.ofNat (digitVal m1 * 10 + digitVal m2)
          match afterMin r2 with
          | some (ss, r3) => some (sign * (hh * 3600 + mm * 60 + ss), r3)
          | none => some (sign * (hh * 3600 + mm * 60), r2)
        else none
      | m1 :: m2 :: r2 =>
        if m1.isDigit && m2.isDigit then
          let mm : Int := Int.ofNat (digitVal m1 * 10 + digitVal m2)
          match afterMin r2 with
          | some (ss, r3) => some (sign * (hh * 3600 + mm * 60 + ss), r3)
          | none => some (sign * (hh * 3600 + mm * 60), r2)
        else none
      | _ => none
    else none
  | _ => none

def isLeap (y : Nat) : Bool := (y % 4 == 0 && y % 100 != 0) || y % 400 == 0

def daysInMonth (y m : Nat) : Nat :=
  if m = 2 then (if isLeap y then 29 else 28)
  else if m = 4 || m = 6 || m = 9 || m = 11 then 30
  else 31

def pythonStrptime (s : Str) : Option PyDateTime :=
  match parseDay s with
  | none => none
  | some (d, r) =>
  match expectC '/' r with
  | none => none
  | some r =>
  match parseMonth r with
  | none => none
  | some (mo, r) =>
  match expectC '/' r with
  | none => none
  | some r =>
  match parseYear4 r with
  | none => none
  | some (y, r) =>
  match expectC ':' r with
  | none => none
  | some r =>
  match parseHour r with
  | none => none
  | some (h, r) =>
  match expectC ':' r with
  | none => none
  | some r =>
  match parseMin r with
  | none => none
  | some (mi, r) =>
  match expectC ':' r with
  | none => none
  | some r =>
  match parseSec r with
  | none => none
  | some (se, r) =>
  -- a literal space in the format matches `\s+`
  if (r.takeWhile pyIsSpace).isEmpty then none else
  match parseZOff (r.dropWhile pyIsSpace) with
  | none => none
  | some (off, r2) =>
  -- the compiled regex must consume the whole string, and the
  -- datetime / timezone constructors validate their arguments
  if r2.isEmpty && 1 ≤ y && d ≤ daysInMonth y mo && se ≤ 59
      && off < 86400 && -86400 < off then
    some ⟨y, mo, d, h, mi, se, off⟩
  else none

/-! ## `parse_log_line` and `load_log_data` -/

/-- The dict built by `parse_log_line`, minus the three fields delegated to
the external `user_agents` classifier. -/
structure LogRecord where
  ip : Str
  remote_log_name : Str
  user_id : Str
  datetime : PyDateTime
  method : Str
  api : Str
  protocol : Str
  status : Nat
  bytes_sent : Nat
  referrer : Str
  ua_string : Str
  response_time : Nat
deriving DecidableEq, Repr

/-- `int()` of a (non-empty, all-digit) capture. -/
def natOfDigits (ds : Str) : Nat := ds.foldl (fun n c => n * 10 + digitVal c) 0

/-- Outcome of one `parse_log_line` call: a record, Python's `None` (the
regex did not match), or an uncaught `ValueError` from `datetime.strptime`
(the timestamp group matched the token shape `[\w:/]+\s[+\-]\d{4}` but is
not a valid date). -/
inductive ParseOutcome where
  | ok (r : LogRecord)
  | noMatch
  | raised
deriving DecidableEq, Repr

def parse_log_line (line : Str) : ParseOutcome :=
  match reMatchLine line with
  | none => .noMatch
  | some (g, _) =>
    match pythonStrptime g.ts with
    | none => .raised
    | some dt =>
      .ok ⟨g.ip, g.rln, g.uid, dt, g.method, g.api, g.protocol,
        natOfDigits g.status, natOfDigits g.bytes, g.referrer, g.ua,
        natOfDigits g.rtime⟩

/-- `str.strip()` (ASCII whitespace). -/
def pyStrip (s : Str) : Str :=
  (((s.dropWhile pyIsSpace).reverse).dropWhile pyIsSpace).reverse

/-- `load_log_data`: parse each stripped line, append the parsed dicts, skip
lines on which the parser returned `None`.  An uncaught `ValueError` aborts
the whole call (`Except.error`). -/
def load_log_data : List Str → Except Unit (List LogRecord)
  | [] => .ok []
  | l :: ls =>
    match parse_log_line (pyStrip l) with
    | .raised => .error ()
    | .noMatch => load_log_data ls
    | .ok r => (load_log_data ls).map (fun recs => r :: recs)

/-! ## Dashboard analytics (`main` in `server_log_dashboard.py`)

The sidebar filter mask, the hourly `groupby ... size()` series and the
three key metrics, lifted out of `main` with the widget values as
parameters. -/

/-- `.dt.date` of a parsed timestamp. -/
def dateTriple (t : PyDateTime) : Nat × Nat × Nat := (t.year, t.month, t.day)

/-- Chronological order on calendar dates. -/
def tripleLe (a b : Nat × Nat × Nat) : Prop :=
  a.1 < b.1 ∨ (a.1 = b.1 ∧ (a.2.1 < b.2.1 ∨ (a.2.1 = b.2.1 ∧ a.2.2 ≤ b.2.2)))

instance (a b : Nat × Nat × Nat) : Decidable (tripleLe a b) := by
  unfold tripleLe; infer_instance

/-- The filter mask of `main`:
`(dt.date >= date_range[0]) & (dt.date <= date_range[1]) &
status.isin(status_codes) & method.isin(methods)`, applied row-wise. -/
def filterRecords (df : List LogRecord) (d1 d2 : Nat × Nat × Nat)
    (statusCodes : List Nat) (methods : List Str) : List LogRecord :=
  df.filter (fun r =>
    decide (tripleLe d1 (dateTriple r.datetime))
    && decide (tripleLe (dateTriple r.datetime) d2)
    && decide (r.status ∈ statusCodes)
    && decide (r.method ∈ methods))

/-- `dt.floor("H")`. -/
def floorHourKey (t : PyDateTime) : PyDateTime :=
  { t with minute := 0, second := 0 }

/-- Chronological order on floored timestamps (all records of one dataset
carry the same fixed offset, so field-lexicographic order is chronological
order; `groupby` sorts its keys this way). -/
def pdtLe (a b : PyDateTime) : Bool :=
  decide ((a.year, a.month, a.day, a.hour, a.minute, a.second)
    ≤ (b.year, b.month, b.day, b.hour, b.minute, b.second))

/-- `filtered_df.groupby(filtered_df['datetime'].dt.floor('H')).size()`:
one `(bucket, count)` row per distinct floored timestamp. -/
def hourly_requests (df : List LogRecord) : List (PyDateTime × Nat) :=
  let keys := ((df.map (fun r => floorHourKey r.datetime)).dedup).insertionSort
    (fun a b => pdtLe a b)
  keys.map (fun k => (k, df.countP (fun r => decide (floorHourKey r.datetime = k))))

/-- A pandas float: either NaN or a number. -/
inductive PyFloat where
  | nan
  | val (q : ℚ)
deriving DecidableEq, Repr

/-- `Series.mean()`: NaN on an empty series, else the arithmetic mean. -/
def seriesMean (xs : List ℚ) : PyFloat :=
  if xs = [] then .nan else .val (xs.sum / xs.length)

def pyFloatMul (x : PyFloat) (c : ℚ) : PyFloat :=
  match x with
  | .nan => .nan
  | .val q => .val (q * c)

/-- The three key metrics of `main`: average response time,
`len(filtered_df)`, and `status.apply(lambda x: x < 400).mean() * 100`. -/
def summary_metrics (df : List LogRecord) : PyFloat × Nat × PyFloat :=
  (seriesMean (df.map (fun r => (r.response_time : ℚ))),
   df.length,
   pyFloatMul (seriesMean (df.map (fun r => if r.status < 400 then (1 : ℚ) else 0))) 100)

/-! ## The generator (`test_file_generator.py`)

`generate_log_entry` receives the values drawn by `weighted_choice`,
`generate_ip`, `generate_bytes_sent`, `generate_response_time` and the
referrer coin flip as parameters; the weighted pools below are the key sets
of the distributions in `LogGenerator.__init__`. -/

/-- A naive (offset-free) timestamp, as produced by `datetime.now()`
arithmetic in `generate_logs`; sub-second precision never reaches the
formatted output. -/
structure NaiveDT where
  year : Nat
  month : Nat
  day : Nat
  hour : Nat
  minute : Nat
  second : Nat
deriving DecidableEq, Repr

def mkUTC (t : NaiveDT) : PyDateTime :=
  ⟨t.year, t.month, t.day, t.hour, t.minute, t.second, 0⟩

/-- The fields of a `datetime` value are always a valid calendar moment; the
year bound reflects `datetime`'s own range restricted to four-digit years
(every timestamp built from `datetime.now()` minus up to 7 days satisfies
this). -/
def ValidTs (t : NaiveDT) : Prop :=
  1000 ≤ t.year ∧ t.year ≤ 9999 ∧ 1 ≤ t.month ∧ t.month ≤ 12
  ∧ 1 ≤ t.day ∧ t.day ≤ daysInMonth t.year t.month
  ∧ t.hour ≤ 23 ∧ t.minute ≤ 59 ∧ t.second ≤ 59

instance (t : NaiveDT) : Decidable (ValidTs t) := by
  unfold ValidTs; infer_instance

def digitChar (d : Nat) : Char := Char.ofNat (48 + d)

/-- Decimal digits of a natural number, most significant first; the fuel
argument (any bound above the number itself) makes the recursion
structural. -/
def natDigitsAux (fuel n : Nat) : Str :=
  match fuel with
  | 0 => []
  | fuel + 1 =>
    if n < 10 then [digitChar n]
    else natDigitsAux fuel (n / 10) ++ [digitChar (n % 10)]

/-- `str()` of a Python non-negative int. -/
def natDigits (n : Nat) : Str := natDigitsAux (n + 1) n

/-- `str()` of a Python int (`generate_bytes_sent` can return a negative
value, so the byte count is an `Int`). -/
def intDigits (i : Int) : Str :=
  if i < 0 then '-' :: natDigits i.natAbs else natDigits i.toNat

/-- `%d`, `%H`, `%M`, `%S`: zero-padded to two digits (all arguments are at
most 59). -/
def pad2 (n : Nat) : Str := [digitChar (n / 10 % 10), digitChar (n % 10)]

/-- `%Y` for the four-digit years of the generation window. -/
def pad4 (n : Nat) : Str :=
  [digitChar (n / 1000 % 10), digitChar (n / 100 % 10),
   digitChar (n / 10 % 10), digitChar (n % 10)]

/-- `%b` in the C locale. -/
def monthAbbr (m : Nat) : Str :=
  if m = 1 then [ 'J', 'a', 'n'] else if m = 2 then [ 'F', 'e', 'b']
  else if m = 3 then [ 'M', 'a', 'r'] else if m = 4 then [ 'A', 'p', 'r']
  else if m = 5 then [ 'M', 'a', 'y'] else if m = 6 then [ 'J', 'u', 'n']
  else if m = 7 then [ 'J', 'u', 'l'] else if m = 8 then [ 'A', 'u', 'g']
  else if m = 9 then [ 'S', 'e', 'p'] else if m = 10 then [ 'O', 'c', 't']
  else if m = 11 then [ 'N', 'o', 'v'] else if m = 12 then [ 'D', 'e', 'c']
  else []

/-- `timestamp.strftime("%d/%b/%Y:%H:%M:%S")`. -/
def strftimeLog (t : NaiveDT) : Str :=
  pad2 t.day ++ '/' :: monthAbbr t.month ++ '/' :: pad4 t.year
    ++ ':' :: pad2 t.hour ++ ':' :: pad2 t.minute ++ ':' :: pad2 t.second

/-- Keys of `self.methods`. -/
def methodsPool : List Str :=
  [("GET").toList, ("POST").toList, ("PUT").toList, ("DELETE").toList]

/-- Keys of `self.endpoints`. -/
def endpointsPool : List Str :=
  [("/api/users").toList, ("/api/products").toList, ("/api/orders").toList,
   ("/api/auth/login").toList, ("/api/auth/logout").toList, ("/api/cart").toList,
   ("/api/search").toList, ("/health").toList, ("/metrics").toList]

/-- Keys of `self.status_codes`. -/
def statusPool : List Nat := [200, 201, 301, 304, 400, 401, 403, 404, 500]

/-- Keys of `self.user_agents`. -/
def userAgentsPool : List Str :=
  [("Mozilla/5.0 (Windows NT 10.0; Win64; x64) AppleWebKit/537.36 (KHTML, like Gecko) Chrome/91.0.4472.124 Safari/537.36").toList,
   ("Mozilla/5.0 (Macintosh; Intel Mac OS X 10_15_7) AppleWebKit/605.1.15 (KHTML, like Gecko) Version/14.1.1 Safari/605.1.15").toList,
   ("Mozilla/5.0 (Windows NT 10.0; Win64; x64; rv:89.0) Gecko/20100101 Firefox/89.0").toList,
   ("Mozilla/5.0 (iPhone; CPU iPhone OS 14_6 like Mac OS X) AppleWebKit/605.1.15 (KHTML, like Gecko) Version/14.1.1 Mobile/15E148 Safari/604.1").toList,
   ("Mozilla/5.0 (Linux; Android 11; SM-G991B) AppleWebKit/537.36 (KHTML, like Gecko) Chrome/91.0.4472.120 Mobile Safari/537.36").toList,
   ("Mozilla/5.0 (Windows NT 10.0; Win64; x64) AppleWebKit/537.36 (KHTML, like Gecko) Chrome/91.0.4472.124 Safari/537.36 Edg/91.0.864.59").toList]

/-- The f-string of `generate_log_entry`, with the drawn values as
parameters:
`{ip} - - [{strftime} +0000] "{method} {endpoint} HTTP/1.1" {status} {bytes} "{referrer}" "{ua}" {rtime}\n`. -/
def generate_log_entry (ip : Str) (method : Str) (endpoint : Str)
    (statusCode : Nat) (bytesSent : Int) (referrer : Str) (ua : Str)
    (responseTime : Nat) (timestamp : NaiveDT) : Str :=
  ip ++ (" - - [").toList
    ++ strftimeLog timestamp ++ (" +0000] \"").toList
    ++ method ++ [ ' '] ++ endpoint ++ (" HTTP/1.1\" ").toList
    ++ natDigits statusCode ++ [ ' '] ++ intDigits bytesSent ++ (" \"").toList
    ++ referrer ++ ("\" \"").toList ++ ua ++ ("\" ").toList
    ++ natDigits responseTime ++ [ '\n']

/-- The timestamp pipeline of `generate_logs`, with the Poisson/uniform
draws already materialised as the list `timestamps` (encoded by total
chronological order, e.g. microseconds since an epoch) and the
`random.sample` result as `chosen`: sort, downsample when too many were
produced, re-sort.  One log line is then written per element; writing and
directory handling are I/O outside the embedding. -/
def generate_logs_timestamps (timestamps : List Int) (numLines : Nat)
    (chosen : List Int) : List Int :=
  let sorted1 := timestamps.insertionSort (fun a b => a ≤ b)
  let kept := if numLines < sorted1.length then chosen else sorted1
  kept.insertionSort (fun a b => a ≤ b)

/-- `true` when the string is empty or starts with a non-digit: the final
greedy `(\d+)` of the pattern stops exactly here. -/
def headNotDigit : Str → Bool
  | [] => true
  | c :: _ => !c.isDigit

/-- The text matched by the pattern tail
`(\d{3}) (\d+) "([^"]*)" "([^"]*)" (\d+)` followed by the unconsumed rest of
the line, with the groups delimited as the engine delimits them. -/
def assembleTail (s1 s2 s3 : Char) (bys ref ua rt rest : Str) : Str :=
  s1 :: s2 :: s3 :: ' '
    :: (bys ++ ' ' :: '"' :: (ref ++ '"' :: ' ' :: '"'
      :: (ua ++ '"' :: ' ' :: (rt ++ rest))))

/-- A full line decomposed according to the grammar (plus unconsumed rest). -/
def assembleLine (ip rln uid w : Str) (s sg d1 d2 d3 d4 : Char)
    (m a p : Str) (s1 s2 s3 : Char) (bys ref ua rt rest : Str) : Str :=
  ip ++ ' ' :: (rln ++ ' ' :: (uid ++ ' ' :: '[' ::
    (w ++ s :: sg :: d1 :: d2 :: d3 :: d4 :: ']' :: ' ' :: '"' ::
      (m ++ ' ' :: (a ++ ' ' :: (p ++ '"' :: ' '
        :: assembleTail s1 s2 s3 bys ref ua rt rest))))))

/-- The record `parse_log_line` builds from the regex groups and the parsed
timestamp. -/
def recOf (g : Groups) (dt : PyDateTime) : LogRecord :=
  ⟨g.ip, g.rln, g.uid, dt, g.method, g.api, g.protocol, natOfDigits g.status,
    natOfDigits g.bytes, g.referrer, g.ua, natOfDigits g.rtime⟩

def sampleLine : Str :=
  ("192.168.1.1 - - [10/Oct/2023:13:55:36 +0000] \"GET /api/users HTTP/1.1\" 200 1024 \"-\" \"Mozilla/5.0 (Windows NT 10.0; Win64; x64)\" 45").toList

def sampleRecord : LogRecord :=
  { ip := ("192.168.1.1").toList
    remote_log_name := [ '-']
    user_id := [ '-']
    datetime := ⟨2023, 10, 10, 13, 55, 36, 0⟩
    method := ("GET").toList
    api := ("/api/users").toList
    protocol := ("HTTP/1.1").toList
    status := 200
    bytes_sent := 1024
    referrer := [ '-']
    ua_string := ("Mozilla/5.0 (Windows NT 10.0; Win64; x64)").toList
    response_time := 45 }

def badTsLine : Str :=
  ("1.1.1.1 - - [30/Feb/2023:13:55:36 +0000] \"GET /a HTTP/1.1\" 200 10 \"-\" \"x\" 5").toList

def goodLine2 : Str :=
  ("10.0.0.5 - - [11/Oct/2023:08:01:02 +0000] \"POST /api/orders HTTP/1.1\" 404 99 \"-\" \"curl/7.1\" 7").toList

def goodRecord2 : LogRecord :=
  { ip := ("10.0.0.5").toList
    remote_log_name := [ '-']
    user_id := [ '-']
    datetime := ⟨2023, 10, 11, 8, 1, 2, 0⟩
    method := ("POST").toList
    api := ("/api/orders").toList
    protocol := ("HTTP/1.1").toList
    status := 404
    bytes_sent := 99
    referrer := [ '-']
    ua_string := ("curl/7.1").toList
    response_time := 7 }

def badTsLine2 : Str :=
  ("2.2.2.2 - - [31/Apr/2024:00:00:00 +0000] \"GET /b HTTP/1.1\" 301 1 \"-\" \"y\" 2").toList

/-- Observer used to state C10: the text between the first `[` and the
following `]` of a log line. -/
def bracketField (line : Str) : Str :=
  ((line.dropWhile (fun c => c != '[')).drop 1).takeWhile (fun c => c != ']')

def chromeUA : Str :=
  ("Mozilla/5.0 (Windows NT 10.0; Win64; x64) AppleWebKit/537.36 (KHTML, like Gecko) Chrome/91.0.4472.124 Safari/537.36").toList

/-! ## Helper lemmas about maximal runs -/

theorem takeWhile_append_all {p : Char → Bool} {x : Str} (r : Str)
    (hx : x.all p = true) : (x ++ r).takeWhile p = x ++ r.takeWhile p := by
  induction x with
  | nil => simp
  | cons c cs ih =>
    simp only [List.all_cons, Bool.and_eq_true] at hx
    simp [List.takeWhile_cons, hx.1, ih hx.2]

theorem dropWhile_append_all {p : Char → Bool} {x : Str} (r : Str)
    (hx : x.all p = true) : (x ++ r).dropWhile p = r.dropWhile p := by
  induction x with
  | nil => simp
  | cons c cs ih =>
    simp only [List.all_cons, Bool.and_eq_true] at hx
    simp [List.dropWhile_cons, hx.1, ih hx.2]

theorem takeWhile_cons_neg {p : Char → Bool} {c : Char} (r : Str)
    (hc : p c = false) : (c :: r).takeWhile p = [] := by
  simp [List.takeWhile_cons, hc]

theorem dropWhile_cons_neg {p : Char → Bool} {c : Char} (r : Str)
    (hc : p c = false) : (c :: r).dropWhile p = c :: r := by
  simp [List.dropWhile_cons, hc]

theorem dropWhile_head_false {p : Char → Bool} {l r : Str} {c : Char}
    (h : l.dropWhile p = c :: r) : p c = false := by
  induction l with
  | nil => simp at h
  | cons a as ih =>
    rw [List.dropWhile_cons] at h
    by_cases hp : p a = true
    · exact ih (by simpa [hp] using h)
    · simp [hp] at h
      rw [← h.1]
      exact Bool.eq_false_iff.mpr hp



theorem takeWhile_stop {p : Char → Bool} {r : Str}
    (hr : r = [] ∨ ∃ c r2, r = c :: r2 ∧ p c = false) :
    r.takeWhile p = [] ∧ r.dropWhile p = r := by
  rcases hr with h | ⟨c, r2, rfl, hc⟩
  · subst h; simp
  · exact ⟨takeWhile_cons_neg _ hc, dropWhile_cons_neg _ hc⟩

theorem headNotDigit_stop {r : Str} (h : headNotDigit r = true) :
    r.takeWhile Char.isDigit = [] ∧ r.dropWhile Char.isDigit = r := by
  apply takeWhile_stop
  cases r with
  | nil => exact Or.inl rfl
  | cons c r2 => exact Or.inr ⟨c, r2, rfl, by simpa [headNotDigit] using h⟩

/-! ## Completeness of the matcher steps on well-shaped input -/

theorem splitTok_spec {t : Str} (r : Str) (ht : t.all nonSpace = true)
    (hne : t ≠ []) : splitTok (t ++ ' ' :: r) = some (t, r) := by
  unfold splitTok
  rw [takeWhile_append_all _ ht, dropWhile_append_all _ ht,
    takeWhile_cons_neg _ (by decide), dropWhile_cons_neg _ (by decide)]
  simp [List.isEmpty_iff, hne]

theorem pyIsSpace_not_tsClass {c : Char} (h : pyIsSpace c = true) :
    tsClass c = false := by
  simp only [pyIsSpace, Bool.or_eq_true, beq_iff_eq] at h
  rcases h with ((((h | h) | h) | h) | h) | h <;> subst h <;> decide

theorem splitTsGroup_spec {w : Str} {s sg d1 d2 d3 d4 : Char} (r : Str)
    (hw : w.all tsClass = true) (hne : w ≠ []) (hs : pyIsSpace s = true)
    (hsg : sg = '+' ∨ sg = '-')
    (hd : (d1.isDigit && d2.isDigit && d3.isDigit && d4.isDigit) = true) :
    splitTsGroup (w ++ s :: sg :: d1 :: d2 :: d3 :: d4 :: r)
      = some (w ++ [s, sg, d1, d2, d3, d4], r) := by
  unfold splitTsGroup
  rw [takeWhile_append_all _ hw, dropWhile_append_all _ hw,
    takeWhile_cons_neg _ (pyIsSpace_not_tsClass hs),
    dropWhile_cons_neg _ (pyIsSpace_not_tsClass hs)]
  simp only [Bool.and_eq_true] at hd
  have hsg' : (sg == '+' || sg == '-') = true := by
    rcases hsg with h | h <;> simp [h]
  simp [List.isEmpty_iff, hne, hs, hsg', hd.1.1.1, hd.1.1.2, hd.1.2, hd.2]

theorem digitsSplit_spec {d : Str} {r : Str} (hd : d.all Char.isDigit = true)
    (hne : d ≠ []) (hr : headNotDigit r = true) :
    digitsSplit (d ++ r) = some (d, r) := by
  unfold digitsSplit
  rw [takeWhile_append_all _ hd, dropWhile_append_all _ hd,
    (headNotDigit_stop hr).1, (headNotDigit_stop hr).2]
  simp [List.isEmpty_iff, hne]

theorem exact3Digits_spec {a b c : Char} (r : Str)
    (hd : (a.isDigit && b.isDigit && c.isDigit) = true) :
    exact3Digits (a :: b :: c :: r) = some ([a, b, c], r) := by
  simp only [Bool.and_eq_true] at hd
  simp [exact3Digits, hd.1.1, hd.1.2, hd.2]

theorem quotedSplit_spec {t : Str} (r : Str)
    (ht : t.all (fun c => c != '"') = true) :
    quotedSplit (t ++ '"' :: r) = some (t, r) := by
  unfold quotedSplit
  rw [takeWhile_append_all _ ht, dropWhile_append_all _ ht,
    takeWhile_cons_neg _ (by decide), dropWhile_cons_neg _ (by decide)]
  simp

theorem expectC_cons (c : Char) (r : Str) : expectC c (c :: r) = some r := by
  simp [expectC]

theorem headNotDigit_space (r : Str) : headNotDigit (' ' :: r) = true := rfl



theorem assembleTail_append (s1 s2 s3 : Char) (bys ref ua rt rest suf : Str) :
    assembleTail s1 s2 s3 bys ref ua rt rest ++ suf
      = assembleTail s1 s2 s3 bys ref ua rt (rest ++ suf) := by
  simp [assembleTail]

theorem assembleLine_append (ip rln uid w : Str) (s sg d1 d2 d3 d4 : Char)
    (m a p : Str) (s1 s2 s3 : Char) (bys ref ua rt rest suf : Str) :
    assembleLine ip rln uid w s sg d1 d2 d3 d4 m a p s1 s2 s3 bys ref ua rt rest
        ++ suf
      = assembleLine ip rln uid w s sg d1 d2 d3 d4 m a p s1 s2 s3 bys ref ua rt
          (rest ++ suf) := by
  simp [assembleLine, assembleTail]

theorem matchTail_spec {a b c : Char} {bys ref ua rt rest : Str}
    (hst : (a.isDigit && b.isDigit && c.isDigit) = true)
    (hbys : bys.all Char.isDigit = true) (hbne : bys ≠ [])
    (href : ref.all (fun ch => ch != '"') = true)
    (hua : ua.all (fun ch => ch != '"') = true)
    (hrt : rt.all Char.isDigit = true) (hrne : rt ≠ [])
    (hrest : headNotDigit rest = true) :
    matchTail (' ' :: assembleTail a b c bys ref ua rt rest)
      = some ((([a, b, c], bys, ref, ua, rt)), rest) := by
  simp only [assembleTail, matchTail, expectC_cons, exact3Digits_spec _ hst,
    digitsSplit_spec hbys hbne (headNotDigit_space _),
    quotedSplit_spec _ href, quotedSplit_spec _ hua,
    digitsSplit_spec hrt hrne hrest]

theorem quoteSplits_append_quote (xs : Str) :
    quoteSplits (xs ++ [ '"'])
      = (xs, ([] : Str)) :: (quoteSplits xs).map (fun pq => (pq.1, pq.2 ++ [ '"'])) := by
  induction xs with
  | nil => simp [quoteSplits]
  | cons c cs ih =>
    have step : quoteSplits ((c :: cs) ++ [ '"'])
        = (quoteSplits (cs ++ [ '"'])).map (fun pq => (c :: pq.1, pq.2))
          ++ (if c = '"' then [(([] : Str), cs ++ [ '"'])] else []) := rfl
    have step2 : quoteSplits (c :: cs)
        = (quoteSplits cs).map (fun pq => (c :: pq.1, pq.2))
          ++ (if c = '"' then [(([] : Str), cs)] else []) := rfl
    rw [step, ih, step2]
    by_cases hc : c = '"'
    · subst hc
      simp [List.map_map, List.map_append]
    · simp [hc, List.map_map]

theorem matchProtocol_spec {p : Str} {tg : Str × Str × Str × Str × Str}
    {restF : Str} (t0 : Str) (hp : p.all nonSpace = true) (hne : p ≠ [])
    (htail : matchTail (' ' :: t0) = some (tg, restF)) :
    matchProtocol (p ++ '"' :: ' ' :: t0) = some ((p, tg), restF) := by
  have hpq : (p ++ [ '"']).all nonSpace = true := by
    rw [List.all_append, hp]
    decide
  unfold matchProtocol
  rw [show p ++ '"' :: ' ' :: t0 = (p ++ [ '"']) ++ ' ' :: t0 by simp]
  simp only [takeWhile_append_all _ hpq, dropWhile_append_all _ hpq,
    takeWhile_cons_neg _ (by decide : nonSpace ' ' = false),
    dropWhile_cons_neg _ (by decide : nonSpace ' ' = false),
    List.append_nil, quoteSplits_append_quote]
  unfold firstSome
  simp [List.isEmpty_iff, hne, htail]

/-- Completeness of the matcher: on input decomposed according to the
grammar (with each greedy run delimited as the engine would delimit it),
`reMatchLine` succeeds with exactly these groups and leaves `rest`
unconsumed. -/
theorem reMatchLine_spec
    {ip rln uid w : Str} {s sg d1 d2 d3 d4 : Char} {m a p : Str}
    {s1 s2 s3 : Char} {bys ref ua rt rest : Str}
    (hipA : ip.all nonSpace = true) (hipN : ip ≠ [])
    (hrlnA : rln.all nonSpace = true) (hrlnN : rln ≠ [])
    (huidA : uid.all nonSpace = true) (huidN : uid ≠ [])
    (hwA : w.all tsClass = true) (hwN : w ≠ []) (hs : pyIsSpace s = true)
    (hsg : sg = '+' ∨ sg = '-')
    (hd : (d1.isDigit && d2.isDigit && d3.isDigit && d4.isDigit) = true)
    (hmA : m.all nonSpace = true) (hmN : m ≠ [])
    (haA : a.all nonSpace = true) (haN : a ≠ [])
    (hpA : p.all nonSpace = true) (hpN : p ≠ [])
    (hst : (s1.isDigit && s2.isDigit && s3.isDigit) = true)
    (hbys : bys.all Char.isDigit = true) (hbne : bys ≠ [])
    (href : ref.all (fun ch => ch != '"') = true)
    (hua : ua.all (fun ch => ch != '"') = true)
    (hrt : rt.all Char.isDigit = true) (hrne : rt ≠ [])
    (hrest : headNotDigit rest = true) :
    reMatchLine (assembleLine ip rln uid w s sg d1 d2 d3 d4 m a p s1 s2 s3
        bys ref ua rt rest)
      = some (⟨ip, rln, uid, w ++ [s, sg, d1, d2, d3, d4], m, a, p,
          [s1, s2, s3], bys, ref, ua, rt⟩, rest) := by
  have htail := matchTail_spec hst hbys hbne href hua hrt hrne hrest
  have hproto := matchProtocol_spec _ hpA hpN htail
  simp only [assembleLine, reMatchLine, splitTok_spec _ hipA hipN,
    splitTok_spec _ hrlnA hrlnN,
    splitTok_spec _ huidA huidN, expectC_cons,
    splitTsGroup_spec _ hwA hwN hs hsg hd, splitTok_spec _ hmA hmN,
    splitTok_spec _ haA haN, hproto]

/-! ## Soundness of the matcher steps -/

theorem expectC_sound {c : Char} {cs r : Str} (h : expectC c cs = some r) :
    cs = c :: r := by
  cases cs with
  | nil => simp [expectC] at h
  | cons x xs =>
    simp only [expectC] at h
    split at h
    · cases h
      subst_vars
      rfl
    · cases h

theorem splitTok_sound {cs t r : Str} (h : splitTok cs = some (t, r)) :
    cs = t ++ ' ' :: r ∧ t.all nonSpace = true ∧ t ≠ [] := by
  simp only [splitTok] at h
  split at h
  next r2 heq =>
    split at h
    · cases h
    next hne =>
      cases h
      refine ⟨?_, List.all_takeWhile, by simpa [List.isEmpty_iff] using hne⟩
      conv_lhs => rw [← List.takeWhile_append_dropWhile (p := nonSpace) (l := cs)]
      rw [heq]
  next => cases h

theorem splitTsGroup_sound {cs g r : Str} (h : splitTsGroup cs = some (g, r)) :
    ∃ w s sg d1 d2 d3 d4, cs = w ++ s :: sg :: d1 :: d2 :: d3 :: d4 :: r
      ∧ g = w ++ [s, sg, d1, d2, d3, d4]
      ∧ w.all tsClass = true ∧ w ≠ [] ∧ pyIsSpace s = true
      ∧ (sg = '+' ∨ sg = '-')
      ∧ (d1.isDigit && d2.isDigit && d3.isDigit && d4.isDigit) = true := by
  simp only [splitTsGroup] at h
  split at h
  · cases h
  next hempty =>
    split at h
    next s sg d1 d2 d3 d4 r2 heq =>
      split at h
      next hguard =>
        cases h
        simp only [Bool.and_eq_true, Bool.or_eq_true, beq_iff_eq] at hguard
        refine ⟨cs.takeWhile tsClass, s, sg, d1, d2, d3, d4, ?_, rfl,
          List.all_takeWhile, by simpa [List.isEmpty_iff] using hempty,
          hguard.1.1.1.1.1, hguard.1.1.1.1.2,
          by simp [hguard.1.1.1.2, hguard.1.1.2, hguard.1.2, hguard.2]⟩
        conv_lhs => rw [← List.takeWhile_append_dropWhile (p := tsClass) (l := cs)]
        rw [heq]
      · cases h
    next => cases h

theorem digitsSplit_sound {cs d r : Str} (h : digitsSplit cs = some (d, r)) :
    cs = d ++ r ∧ d.all Char.isDigit = true ∧ d ≠ []
      ∧ headNotDigit r = true := by
  simp only [digitsSplit] at h
  split at h
  · cases h
  next hempty =>
    cases h
    refine ⟨(List.takeWhile_append_dropWhile _ _).symm, List.all_takeWhile,
      by simpa [List.isEmpty_iff] using hempty, ?_⟩
    cases hdrop : cs.dropWhile Char.isDigit with
    | nil => simp [headNotDigit]
    | cons c r2 => simp [headNotDigit, dropWhile_head_false hdrop]

theorem quotedSplit_sound {cs t r : Str} (h : quotedSplit cs = some (t, r)) :
    cs = t ++ '"' :: r ∧ t.all (fun ch => ch != '"') = true := by
  simp only [quotedSplit] at h
  split at h
  next r2 heq =>
    cases h
    refine ⟨?_, List.all_takeWhile⟩
    conv_lhs => rw [← List.takeWhile_append_dropWhile
      (p := fun c => c != '"') (l := cs)]
    rw [heq]
  next => cases h

theorem exact3Digits_sound {cs g r : Str} (h : exact3Digits cs = some (g, r)) :
    ∃ a b c, cs = a :: b :: c :: r ∧ g = [a, b, c]
      ∧ (a.isDigit && b.isDigit && c.isDigit) = true := by
  unfold exact3Digits at h
  split at h
  next a b c r2 =>
    split at h
    next hg =>
      cases h
      exact ⟨a, b, c, rfl, rfl, hg⟩
    · cases h
  next => cases h

theorem firstSome_mem {α β : Type} {f : α → Option β} {l : List α} {b : β}
    (h : firstSome f l = some b) : ∃ a ∈ l, f a = some b := by
  induction l with
  | nil => simp [firstSome] at h
  | cons a rest ih =>
    unfold firstSome at h
    split at h
    next v heq =>
      cases h
      exact ⟨a, List.mem_cons_self a rest, heq⟩
    next heq =>
      obtain ⟨x, hx, hfx⟩ := ih h
      exact ⟨x, List.mem_cons_of_mem a hx, hfx⟩

theorem quoteSplits_mem {xs : Str} {pq : Str × Str}
    (h : pq ∈ quoteSplits xs) : xs = pq.1 ++ '"' :: pq.2 := by
  induction xs generalizing pq with
  | nil => simp [quoteSplits] at h
  | cons c cs ih =>
    unfold quoteSplits at h
    rw [List.mem_append] at h
    rcases h with h | h
    · obtain ⟨pq2, hpq2, rfl⟩ := List.mem_map.mp h
      simp [ih hpq2]
    · split at h
      · simp only [List.mem_singleton] at h
        subst h
        simp [by assumption]
      · simp at h

theorem matchTail_sound {cs : Str} {tg : Str × Str × Str × Str × Str}
    {rest : Str} (h : matchTail cs = some (tg, rest)) :
    ∃ a b c bys ref ua rt,
      cs = ' ' :: assembleTail a b c bys ref ua rt rest
      ∧ tg = ([a, b, c], bys, ref, ua, rt)
      ∧ (a.isDigit && b.isDigit && c.isDigit) = true
      ∧ bys.all Char.isDigit = true ∧ bys ≠ []
      ∧ ref.all (fun ch => ch != '"') = true
      ∧ ua.all (fun ch => ch != '"') = true
      ∧ rt.all Char.isDigit = true ∧ rt ≠ []
      ∧ headNotDigit rest = true := by
  unfold matchTail at h
  split at h
  · cases h
  next cs1 heq1 =>
  split at h
  · cases h
  next pair2 st cs2 heq2 =>
  split at h
  · cases h
  next cs3 heq3 =>
  split at h
  · cases h
  next pair4 bys cs4 heq4 =>
  split at h
  · cases h
  next cs5 heq5 =>
  split at h
  · cases h
  next cs6 heq6 =>
  split at h
  · cases h
  next pair7 ref cs7 heq7 =>
  split at h
  · cases h
  next cs8 heq8 =>
  split at h
  · cases h
  next cs9 heq9 =>
  split at h
  · cases h
  next pair10 ua cs10 heq10 =>
  split at h
  · cases h
  next cs11 heq11 =>
  split at h
  · cases h
  next pair12 rt cs12 heq12 =>
  cases h
  obtain ⟨a, b, c, hcs1, rfl, hst⟩ := exact3Digits_sound heq2
  obtain ⟨hcs3, hbysA, hbysN, _⟩ := digitsSplit_sound heq4
  obtain ⟨hcs6, hrefA⟩ := quotedSplit_sound heq7
  obtain ⟨hcs9, huaA⟩ := quotedSplit_sound heq10
  obtain ⟨hcs11, hrtA, hrtN, hrest⟩ := digitsSplit_sound heq12
  have e1 := expectC_sound heq1
  have e3 := expectC_sound heq3
  have e5 := expectC_sound heq5
  have e6 := expectC_sound heq6
  have e8 := expectC_sound heq8
  have e9 := expectC_sound heq9
  have e11 := expectC_sound heq11
  refine ⟨a, b, c, bys, ref, ua, rt, ?_, rfl, hst, hbysA, hbysN, hrefA,
    huaA, hrtA, hrtN, hrest⟩
  subst e1 hcs1 e3 hcs3 e5 e6 hcs6 e8 e9 hcs9 e11 hcs11
  rfl

theorem matchProtocol_sound {cs : Str} {p : Str}
    {tg : Str × Str × Str × Str × Str} {rest : Str}
    (h : matchProtocol cs = some ((p, tg), rest)) :
    ∃ t0, cs = p ++ '"' :: ' ' :: t0 ∧ p.all nonSpace = true ∧ p ≠ []
      ∧ matchTail (' ' :: t0) = some (tg, rest) := by
  simp only [matchProtocol] at h
  obtain ⟨pq, hmem, hf⟩ := firstSome_mem h
  split at hf
  · cases hf
  next hne =>
    rw [Option.map_eq_some'] at hf
    obtain ⟨tr, htr, hpair⟩ := hf
    have hpq1 : pq.1 = p := congrArg (fun x => x.1.1) hpair
    have htg : tr.1 = tg := congrArg (fun x => x.1.2) hpair
    have hrest : tr.2 = rest := congrArg (fun x => x.2) hpair
    have hrun : cs.takeWhile nonSpace = pq.1 ++ '"' :: pq.2 := quoteSplits_mem hmem
    -- the characters of the maximal run are all non-whitespace
    have hallrun : (pq.1 ++ '"' :: pq.2).all nonSpace = true := by
      rw [← hrun]; exact List.all_takeWhile
    rw [List.all_append, List.all_cons, Bool.and_eq_true, Bool.and_eq_true]
      at hallrun
    have hallp : pq.1.all nonSpace = true := hallrun.1
    have hallq : pq.2.all nonSpace = true := hallrun.2.2
    -- the tail matcher starts by consuming a literal space, so the part of
    -- the run after the chosen quote must be empty
    obtain ⟨a2, b2, c2, bys2, ref2, ua2, rt2, hshape, -⟩ := matchTail_sound htr
    have hq : pq.2 = [] := by
      cases hq2 : pq.2 with
      | nil => rfl
      | cons qc qrest =>
        rw [hq2] at hshape
        have : qc = ' ' := by
          have := congrArg (fun l => l.head?) hshape
          simpa using this
        rw [hq2, List.all_cons, this] at hallq
        simp [nonSpace, pyIsSpace] at hallq
    rw [hq] at hshape htr
    simp only [List.nil_append] at hshape htr
    refine ⟨cs.dropWhile nonSpace |>.tail, ?_, by rw [← hpq1]; exact hallp,
      by rw [← hpq1]; simpa [List.isEmpty_iff] using hne, ?_⟩
    · conv_lhs => rw [← List.takeWhile_append_dropWhile (p := nonSpace) (l := cs)]
      rw [hrun, hq, hpq1, hshape]
      simp
    · rw [← htg, ← hrest, ← htr, hshape]
      simp

theorem headNotDigit_dropWhile (l : Str) :
    headNotDigit (l.dropWhile Char.isDigit) = true := by
  cases hdrop : l.dropWhile Char.isDigit with
  | nil => rfl
  | cons c r2 => simp [headNotDigit, dropWhile_head_false hdrop]

/-- Appending arbitrary characters to a line that matches cannot destroy the
match: the pattern is anchored at the start only.  When the original match
had already stopped strictly inside the line, nothing changes; when it had
consumed the whole line, the final greedy `(\d+)` additionally absorbs the
leading digits of the suffix. -/
theorem reMatchLine_append {cs : Str} {g : Groups} {rest : Str} (suf : Str)
    (h : reMatchLine cs = some (g, rest)) :
    (rest ≠ [] → reMatchLine (cs ++ suf) = some (g, rest ++ suf))
    ∧ (rest = [] → reMatchLine (cs ++ suf)
        = some ({g with rtime := g.rtime ++ suf.takeWhile Char.isDigit},
            suf.dropWhile Char.isDigit)) := by
  unfold reMatchLine at h
  split at h
  · cases h
  next pq1 ip cs1 heq1 =>
  split at h
  · cases h
  next pq2 rln cs2 heq2 =>
  split at h
  · cases h
  next pq3 uid cs3 heq3 =>
  split at h
  · cases h
  next cs4 heq4 =>
  split at h
  · cases h
  next pq5 ts cs5 heq5 =>
  split at h
  · cases h
  next cs6 heq6 =>
  split at h
  · cases h
  next cs7 heq7 =>
  split at h
  · cases h
  next cs8 heq8 =>
  split at h
  · cases h
  next pq9 m cs9 heq9 =>
  split at h
  · cases h
  next pq10 a cs10 heq10 =>
  split at h
  · cases h
  next pq11 p tg cs11 heq11 =>
  cases h
  obtain ⟨hcs, hipA, hipN⟩ := splitTok_sound heq1
  obtain ⟨hcs1, hrlnA, hrlnN⟩ := splitTok_sound heq2
  obtain ⟨hcs2, huidA, huidN⟩ := splitTok_sound heq3
  have hcs3 := expectC_sound heq4
  obtain ⟨w, s, sg, d1, d2, d3, d4, hcs4, hts, hwA, hwN, hsp, hsg, hdg⟩ :=
    splitTsGroup_sound heq5
  have hcs5 := expectC_sound heq6
  have hcs6 := expectC_sound heq7
  have hcs7 := expectC_sound heq8
  obtain ⟨hcs8, hmA, hmN⟩ := splitTok_sound heq9
  obtain ⟨hcs9, haA, haN⟩ := splitTok_sound heq10
  obtain ⟨t0, hcs10, hpA, hpN, htail⟩ := matchProtocol_sound heq11
  obtain ⟨s1, s2, s3, bys, ref, ua, rt, hshape, htg, hst, hbysA, hbysN,
    hrefA, huaA, hrtA, hrtN, hrest⟩ := matchTail_sound htail
  have ht0 : t0 = assembleTail s1 s2 s3 bys ref ua rt rest := by
    have := congrArg List.tail hshape
    simpa using this
  subst hts htg hcs hcs1 hcs2 hcs3 hcs4 hcs5 hcs6 hcs7 hcs8 hcs9 hcs10 ht0
  constructor
  · intro hne
    obtain ⟨rc, rcs, hrc⟩ := List.exists_cons_of_ne_nil hne
    have hrest' : headNotDigit (rest ++ suf) = true := by
      rw [hrc] at hrest ⊢
      simpa [headNotDigit] using hrest
    show reMatchLine (assembleLine ip rln uid w s sg d1 d2 d3 d4 m a p
      s1 s2 s3 bys ref ua rt rest ++ suf) = _
    rw [assembleLine_append]
    exact reMatchLine_spec hipA hipN hrlnA hrlnN huidA huidN hwA hwN hsp hsg
      hdg hmA hmN haA haN hpA hpN hst hbysA hbysN hrefA huaA hrtA hrtN hrest'
  · intro hnil
    subst hnil
    have hrtA' : (rt ++ suf.takeWhile Char.isDigit).all Char.isDigit = true := by
      rw [List.all_append, hrtA]
      simp [List.all_takeWhile]
    have hrtN' : rt ++ suf.takeWhile Char.isDigit ≠ [] := by
      simp [hrtN]
    show reMatchLine (assembleLine ip rln uid w s sg d1 d2 d3 d4 m a p
      s1 s2 s3 bys ref ua rt [] ++ suf) = _
    rw [assembleLine_append]
    have hfold : assembleLine ip rln uid w s sg d1 d2 d3 d4 m a p s1 s2 s3
        bys ref ua rt ([] ++ suf)
        = assembleLine ip rln uid w s sg d1 d2 d3 d4 m a p s1 s2 s3
          bys ref ua (rt ++ suf.takeWhile Char.isDigit)
          (suf.dropWhile Char.isDigit) := by
      simp [assembleLine, assembleTail]
    rw [hfold]
    exact reMatchLine_spec hipA hipN hrlnA hrlnN huidA huidN hwA hwN hsp hsg
      hdg hmA hmN haA haN hpA hpN hst hbysA hbysN hrefA huaA hrtA' hrtN'
      (headNotDigit_dropWhile suf)



/-- C5: the concrete scenario line parses to the stated field values:
ip 192.168.1.1, method GET, path /api/users, status 200, bytes 1024,
response time 45, referrer `-`, timestamp 2023-10-10T13:55:36+00:00. -/
theorem C5_concrete_line : parse_log_line sampleLine = ParseOutcome.ok sampleRecord := by
  decide



/-- C9: the pattern is anchored at the start of the line only, so a line
that parses keeps parsing after arbitrary extra characters are appended
after the response-time digits; when the appended suffix starts with a
non-digit the parsed record is unchanged (a digit-initial suffix is instead
absorbed into the greedy response-time group). -/
theorem C9_anchored_start_only (cs suf : Str) (r : LogRecord)
    (h : parse_log_line cs = ParseOutcome.ok r) :
    (∃ r2, parse_log_line (cs ++ suf) = ParseOutcome.ok r2)
    ∧ (headNotDigit suf = true
        → parse_log_line (cs ++ suf) = ParseOutcome.ok r) := by
  unfold parse_log_line at h
  split at h
  · cases h
  next g rest heq =>
    split at h
    · cases h
    next dt hdt =>
      cases h
      have hap := reMatchLine_append suf heq
      by_cases hrest : rest = []
      · have h2 := hap.2 hrest
        have hdt2 : pythonStrptime
            ({g with rtime := g.rtime ++ suf.takeWhile Char.isDigit} : Groups).ts
            = some dt := hdt
        constructor
        · refine ⟨recOf {g with rtime := g.rtime ++ suf.takeWhile Char.isDigit} dt, ?_⟩
          unfold parse_log_line
          simp only [h2, hdt2]
          rfl
        · intro hsuf
          have htw : suf.takeWhile Char.isDigit = [] := (headNotDigit_stop hsuf).1
          have hdw : suf.dropWhile Char.isDigit = suf := (headNotDigit_stop hsuf).2
          unfold parse_log_line
          rw [htw] at h2
          have hg : ({g with rtime := g.rtime ++ []} : Groups) = g := by
            cases g
            simp
          rw [hg] at h2
          simp only [h2, hdt]
      · have h1 := hap.1 hrest
        constructor
        · refine ⟨recOf g dt, ?_⟩
          unfold parse_log_line
          simp only [h1, hdt]
          rfl
        · intro _
          unfold parse_log_line
          simp only [h1, hdt]



/-- C1 counterexample: a line whose timestamp matches the token shape
`[\w:/]+\s[+\-]\d{4}` but names 30 February makes `datetime.strptime` raise
a `ValueError` that escapes `parse_log_line`; inside `load_log_data` the
exception aborts the whole loop, so the well-formed surrounding lines are
lost, and no structured failure is ever recorded. -/
theorem C1_counterexample :
    parse_log_line badTsLine = ParseOutcome.raised
    ∧ load_log_data [sampleLine, badTsLine, goodLine2] = Except.error ()
    ∧ load_log_data [sampleLine, goodLine2]
        = Except.ok [sampleRecord, goodRecord2] := by
  refine ⟨by decide, by rfl, by rfl⟩

/-- C1 (amended): a line on which the regex does not match is silently
skipped — `parse_log_line` returns `None`, nothing is recorded — and
removing or inserting such a line anywhere leaves the loaded dataset
unchanged; only the strptime exception path (see the counterexample)
violates the per-line isolation. -/
theorem C1_amended_noMatch_isolated (pre post : List Str) (bad : Str)
    (hbad : parse_log_line (pyStrip bad) = ParseOutcome.noMatch) :
    load_log_data (pre ++ bad :: post) = load_log_data (pre ++ post) := by
  induction pre with
  | nil => simp only [List.nil_append, load_log_data, hbad]
  | cons l pre ih =>
    simp only [List.cons_append, load_log_data]
    cases hp : parse_log_line (pyStrip l) <;> simp [hp, ih]

theorem C1_witness :
    load_log_data [sampleLine, ("#malformed#").toList]
      = load_log_data [sampleLine] :=
  C1_amended_noMatch_isolated [sampleLine] [] (("#malformed#").toList) (by decide)



/-- C3 counterexample: the dataset builder records no failure bucket at all.
A malformed line leaves the result indistinguishable from an empty input
(`successes + failures + blank_lines_skipped = total` fails: one input line,
zero of everything recorded), and a shape-matching invalid timestamp aborts
construction entirely instead of being counted. -/
theorem C3_counterexample :
    load_log_data [("not a valid log line").toList] = Except.ok []
    ∧ load_log_data [] = Except.ok []
    ∧ load_log_data [badTsLine2] = Except.error () := by
  refine ⟨by rfl, by rfl, by rfl⟩

/-- C3 (amended): the builder records successes only; every other line —
blank, whitespace-only or malformed alike — falls into one undifferentiated
skipped bucket, and `successes + skipped = total` holds exactly when no line
triggers the strptime exception (which instead aborts the whole build). -/
theorem C3_amended_success_accounting (lines : List Str)
    (hsafe : ∀ l ∈ lines, parse_log_line (pyStrip l) ≠ ParseOutcome.raised) :
    ∃ recs, load_log_data lines = Except.ok recs
      ∧ recs.length
          + lines.countP
              (fun l => decide (parse_log_line (pyStrip l) = ParseOutcome.noMatch))
        = lines.length := by
  induction lines with
  | nil => exact ⟨[], rfl, by simp⟩
  | cons l ls ih =>
    obtain ⟨recs, hload, hcount⟩ :=
      ih (fun x hx => hsafe x (List.mem_cons_of_mem l hx))
    cases hp : parse_log_line (pyStrip l) with
    | raised => exact absurd hp (hsafe l (List.mem_cons_self l ls))
    | noMatch =>
      refine ⟨recs, ?_, ?_⟩
      · simp only [load_log_data, hp, hload]
      · simp [List.countP_cons, hp]
        omega
    | ok r =>
      refine ⟨r :: recs, ?_, ?_⟩
      · simp only [load_log_data, hp, hload, Except.map]
      · simp [List.countP_cons, hp]
        omega

theorem C3_witness :
    ∃ recs, load_log_data [sampleLine, ("   ").toList, ("junk").toList]
        = Except.ok recs
      ∧ recs.length
          + ([sampleLine, ("   ").toList, ("junk").toList].countP
              (fun l => decide (parse_log_line (pyStrip l) = ParseOutcome.noMatch)))
        = 3 :=
  C3_amended_success_accounting _ (by decide)

/-- C4 counterexample: over an empty dataset the dashboard's mean response
time and success rate are pandas' silent NaN (`Series.mean()` of an empty
series), not an explicit undefined signal. -/
theorem C4_counterexample :
    summary_metrics ([] : List LogRecord) = (PyFloat.nan, 0, PyFloat.nan) := by
  rfl

/-- C4 (amended): `summary_metrics` yields NaN for the mean response time
and the success rate exactly on the empty dataset (and the true length as
total request count); no explicit undefined signal exists in the code. -/
theorem C4_amended_nan_iff_empty (df : List LogRecord) :
    ((summary_metrics df).1 = PyFloat.nan ↔ df = [])
    ∧ ((summary_metrics df).2.2 = PyFloat.nan ↔ df = [])
    ∧ (summary_metrics df).2.1 = df.length := by
  unfold summary_metrics seriesMean pyFloatMul
  cases df with
  | nil => simp
  | cons r rs => simp

/-- C6: the sidebar filter keeps a record iff its date lies in the inclusive
`[start, end]` range, its status is among the selected status codes, and its
method is among the selected methods; selecting no status codes (or no
methods) therefore empties the result rather than disabling the filter. -/
theorem C6_filter_semantics (df : List LogRecord) (d1 d2 : Nat × Nat × Nat)
    (ss : List Nat) (ms : List Str) :
    (∀ r : LogRecord, r ∈ filterRecords df d1 d2 ss ms
      ↔ (r ∈ df ∧ tripleLe d1 (dateTriple r.datetime)
          ∧ tripleLe (dateTriple r.datetime) d2
          ∧ r.status ∈ ss ∧ r.method ∈ ms))
    ∧ ((ss = [] ∨ ms = []) → (filterRecords df d1 d2 ss ms).length = 0) := by
  constructor
  · intro r
    unfold filterRecords
    rw [List.mem_filter]
    simp [and_assoc]
  · intro h
    have : filterRecords df d1 d2 ss ms = [] := by
      unfold filterRecords
      rw [List.filter_eq_nil_iff]
      intro r _
      rcases h with rfl | rfl <;> simp
    rw [this]
    rfl

theorem C6_witness :
    (filterRecords [sampleRecord] (2023, 1, 1) (2024, 1, 1) []
      [("GET").toList]).length = 0 :=
  (C6_filter_semantics [sampleRecord] (2023, 1, 1) (2024, 1, 1) []
    [("GET").toList]).2 (Or.inl rfl)

/-- C7 counterexample: when the Poisson-shaped timestamp stream produced
fewer timestamps than requested, `generate_logs` writes that smaller number
of lines — the downsampling branch never pads.  Here one timestamp was
generated but two lines were requested (the sampler argument satisfies the
requested size), and the output has a single line. -/
theorem C7_counterexample :
    (generate_logs_timestamps [(0 : Int)] 2 [5, 6]).length ≠ 2 := by
  decide

/-- C7 (amended): the generator emits `min(requested, generated)` lines —
exactly the requested count whenever the timestamp stream produced at least
that many — and the emitted sequence is always sorted ascending by
timestamp. -/
theorem C7_amended_min_and_sorted (tss : List Int) (n : Nat)
    (chosen : List Int) (hch : chosen.length = n) :
    (generate_logs_timestamps tss n chosen).length = min n tss.length
    ∧ (generate_logs_timestamps tss n chosen).Sorted (· ≤ ·) := by
  simp only [generate_logs_timestamps]
  by_cases hlt : n < (tss.insertionSort (fun a b => a ≤ b)).length
  · rw [if_pos hlt]
    refine ⟨?_, List.sorted_insertionSort _ _⟩
    rw [(List.perm_insertionSort _ chosen).length_eq, hch]
    rw [(List.perm_insertionSort _ tss).length_eq] at hlt
    omega
  · rw [if_neg hlt]
    refine ⟨?_, List.sorted_insertionSort _ _⟩
    rw [(List.perm_insertionSort _ _).length_eq,
      (List.perm_insertionSort _ tss).length_eq]
    rw [(List.perm_insertionSort _ tss).length_eq] at hlt
    omega

theorem C7_witness :
    (generate_logs_timestamps [(3 : Int), 1, 2] 2 [1, 2]).length = min 2 3
    ∧ (generate_logs_timestamps [(3 : Int), 1, 2] 2 [1, 2]).Sorted (· ≤ ·) :=
  C7_amended_min_and_sorted [(3 : Int), 1, 2] 2 [1, 2] rfl

/-- C8: the hourly `groupby(...).size()` series conserves the record count:
the bucket counts over the distinct floored timestamps sum to the size of
the dataset. -/
theorem C8_bucket_conservation (df : List LogRecord) :
    ((hourly_requests df).map Prod.snd).sum = df.length := by
  unfold hourly_requests
  rw [List.map_map]
  have hperm := (List.perm_insertionSort (fun a b => pdtLe a b)
    ((df.map (fun r => floorHourKey r.datetime)).dedup)).map
    (Prod.snd ∘ fun k =>
      (k, df.countP (fun r => decide (floorHourKey r.datetime = k))))
  rw [hperm.sum_eq]
  have hcnt : ∀ k : PyDateTime,
      df.countP (fun r => decide (floorHourKey r.datetime = k))
        = (df.map (fun r => floorHourKey r.datetime)).count k := by
    intro k
    rw [List.count_eq_countP, List.countP_map]
    rfl
  have hmapeq : ((df.map (fun r => floorHourKey r.datetime)).dedup).map
      (Prod.snd ∘ fun k =>
        (k, df.countP (fun r => decide (floorHourKey r.datetime = k))))
      = ((df.map (fun r => floorHourKey r.datetime)).dedup).map
        (fun k => (df.map (fun r => floorHourKey r.datetime)).count k) := by
    apply List.map_congr_left
    intro k _
    exact hcnt k
  have hdf : (df.map (fun r => floorHourKey r.datetime)).dedup.toFinset
      = (df.map (fun r => floorHourKey r.datetime)).toFinset :=
    List.toFinset.ext (fun x => List.mem_dedup)
  rw [hmapeq, ← List.sum_toFinset _ (List.nodup_dedup _), hdf,
    List.sum_toFinset_count_eq_length, List.length_map]

theorem digitChar_isDigit {d : Nat} (hd : d ≤ 9) :
    (digitChar d).isDigit = true := by
  interval_cases d <;> decide

theorem isDigit_tsClass {c : Char} (h : c.isDigit = true) : tsClass c = true := by
  simp [tsClass, pyIsWord, h]

theorem mod10_lt (x : Nat) : x % 10 ≤ 9 :=
  Nat.le_of_lt_succ (Nat.mod_lt x (by norm_num))

theorem pad2_all_tsClass (n : Nat) : (pad2 n).all tsClass = true := by
  simp [pad2, isDigit_tsClass (digitChar_isDigit (mod10_lt _))]

theorem pad4_all_tsClass (n : Nat) : (pad4 n).all tsClass = true := by
  simp [pad4, isDigit_tsClass (digitChar_isDigit (mod10_lt _))]

theorem monthAbbr_all_tsClass {m : Nat} (h1 : 1 ≤ m) (h2 : m ≤ 12) :
    (monthAbbr m).all tsClass = true := by
  interval_cases m <;> decide

theorem strftimeLog_all_tsClass {t : NaiveDT} (h1 : 1 ≤ t.month)
    (h2 : t.month ≤ 12) : (strftimeLog t).all tsClass = true := by
  unfold strftimeLog
  simp [List.all_append, pad2_all_tsClass, pad4_all_tsClass,
    monthAbbr_all_tsClass h1 h2, tsClass, pyIsWord]

theorem all_imp {p q : Char → Bool} {l : Str}
    (himp : ∀ c, p c = true → q c = true) (h : l.all p = true) :
    l.all q = true := by
  rw [List.all_eq_true] at h ⊢
  exact fun c hc => himp c (h c hc)

theorem tsClass_ne_rbracket {c : Char} (h : tsClass c = true) :
    (c != ']') = true := by
  by_contra hne
  simp at hne
  subst hne
  simp [tsClass, pyIsWord] at h

theorem tsClass_nonSpace {c : Char} (h : tsClass c = true) :
    nonSpace c = true := by
  by_contra hne
  simp only [nonSpace, Bool.not_eq_true', Bool.not_eq_false] at hne
  rw [pyIsSpace_not_tsClass hne] at h
  cases h



theorem bracketField_extract (pre mid post : Str)
    (hpre : pre.all (fun c => c != '[') = true)
    (hmid : mid.all (fun c => c != ']') = true) :
    bracketField (pre ++ '[' :: (mid ++ ']' :: post)) = mid := by
  unfold bracketField
  rw [dropWhile_append_all _ hpre, dropWhile_cons_neg _ (by decide)]
  simp only [List.drop_succ_cons, List.drop_zero]
  rw [takeWhile_append_all _ hmid, takeWhile_cons_neg _ (by decide),
    List.append_nil]

/-- C10: every emitted line renders the timestamp's own naive field values
(no timezone conversion) followed by the constant literal offset `+0000`,
whatever the timestamp argument is. -/
theorem C10_constant_offset (ip m e : Str) (st : Nat) (b : Int)
    (ref ua : Str) (rt : Nat) (ts : NaiveDT)
    (hip : ip.all (fun c => c != '[') = true)
    (hm1 : 1 ≤ ts.month) (hm2 : ts.month ≤ 12) :
    bracketField (generate_log_entry ip m e st b ref ua rt ts)
      = strftimeLog ts ++ (" +0000").toList := by
  have hline : generate_log_entry ip m e st b ref ua rt ts
      = (ip ++ [ ' ', '-', ' ', '-', ' '])
        ++ '[' :: ((strftimeLog ts ++ [ ' ', '+', '0', '0', '0', '0'])
          ++ ']' :: (' ' :: '"' :: (m ++ [ ' '] ++ e
            ++ (" HTTP/1.1\" ").toList ++ natDigits st ++ [ ' ']
            ++ intDigits b ++ (" \"").toList ++ ref ++ ("\" \"").toList
            ++ ua ++ ("\" ").toList ++ natDigits rt ++ [ '\n']))) := by
    unfold generate_log_entry
    have h1 : (" - - [").toList = [ ' ', '-', ' ', '-', ' ', '['] := rfl
    have h2 : (" +0000] \"").toList
        = [ ' ', '+', '0', '0', '0', '0', ']', ' ', '"'] := rfl
    rw [h1, h2]
    simp
  rw [hline, bracketField_extract]
  · rfl
  · rw [List.all_append, hip]
    decide
  · rw [List.all_append]
    have := all_imp (fun c => tsClass_ne_rbracket)
      (strftimeLog_all_tsClass hm1 hm2)
    rw [this]
    decide

theorem C10_witness :
    bracketField (generate_log_entry (("9.9.9.9").toList) (("GET").toList)
        (("/health").toList) 200 77 ([ '-']) (("ua").toList) 3
        ⟨2024, 3, 5, 7, 8, 9⟩)
      = strftimeLog ⟨2024, 3, 5, 7, 8, 9⟩ ++ (" +0000").toList :=
  C10_constant_offset _ _ _ _ _ _ _ _ _ (by decide) (by decide) (by decide)

theorem digitVal_digitChar {d : Nat} (hd : d ≤ 9) :
    digitVal (digitChar d) = d := by
  interval_cases d <;> decide

theorem daysInMonth_le31 (y m : Nat) : daysInMonth y m ≤ 31 := by
  unfold daysInMonth
  split_ifs <;> norm_num

theorem pad2_eq (n : Nat) (hn : n ≤ 99) :
    pad2 n = digitChar (n / 10) :: digitChar (n % 10) :: [] := by
  unfold pad2
  rw [Nat.mod_eq_of_lt (by omega : n / 10 < 10)]

theorem parseDay_pad2 {d : Nat} (r : Str) (h1 : 1 ≤ d) (h2 : d ≤ 31) :
    parseDay (pad2 d ++ r) = some (d, r) := by
  have hr9 : d % 10 ≤ 9 := mod10_lt d
  have hd0 : (digitChar (d % 10)).isDigit = true := digitChar_isDigit hr9
  have hv0 : digitVal (digitChar (d % 10)) = d % 10 := digitVal_digitChar hr9
  rw [pad2_eq d (by omega)]
  have hq : d / 10 = 0 ∨ d / 10 = 1 ∨ d / 10 = 2 ∨ d = 30 ∨ d = 31 := by omega
  rcases hq with hq | hq | hq | hq | hq
  · have hne : (digitChar (d % 10) != '0') = true := by
      have : 1 ≤ d % 10 := by omega
      interval_cases h : d % 10 <;> decide
    rw [hq, show digitChar 0 = '0' from rfl]
    simp [parseDay, hd0, hne, hv0]
    omega
  · rw [hq, show digitChar 1 = '1' from rfl]
    simp [parseDay, hd0, hv0, show digitVal '1' = 1 from rfl]
    omega
  · rw [hq, show digitChar 2 = '2' from rfl]
    simp [parseDay, hd0, hv0, show digitVal '2' = 2 from rfl]
    omega
  · subst hq
    simp [show digitChar (30 / 10) = '3' from rfl,
      show digitChar (30 % 10) = '0' from rfl, parseDay]
  · subst hq
    simp [show digitChar (31 / 10) = '3' from rfl,
      show digitChar (31 % 10) = '1' from rfl, parseDay]

theorem parseMonth_abbr {m : Nat} (r : Str) (h1 : 1 ≤ m) (h2 : m ≤ 12) :
    parseMonth (monthAbbr m ++ r) = some (m, r) := by
  have key : ∀ a b c : Char, monthNum a b c = some m →
      parseMonth (a :: b :: c :: r) = some (m, r) := by
    intro a b c hk
    simp [parseMonth, hk]
  interval_cases m <;> exact key _ _ _ (by decide)

theorem parseYear4_pad4 {y : Nat} (r : Str) (h1 : 1000 ≤ y) (h2 : y ≤ 9999) :
    parseYear4 (pad4 y ++ r) = some (y, r) := by
  have k1 : y / 1000 % 10 ≤ 9 := mod10_lt _
  have k2 : y / 100 % 10 ≤ 9 := mod10_lt _
  have k3 : y / 10 % 10 ≤ 9 := mod10_lt _
  have k4 : y % 10 ≤ 9 := mod10_lt _
  unfold pad4
  simp [parseYear4, digitChar_isDigit, k1, k2, k3, k4,
    digitVal_digitChar k1, digitVal_digitChar k2, digitVal_digitChar k3,
    digitVal_digitChar k4]
  omega

theorem parseHour_pad2 {h : Nat} (r : Str) (hh : h ≤ 23) :
    parseHour (pad2 h ++ r) = some (h, r) := by
  have hr9 : h % 10 ≤ 9 := mod10_lt h
  have hd0 : (digitChar (h % 10)).isDigit = true := digitChar_isDigit hr9
  have hv0 : digitVal (digitChar (h % 10)) = h % 10 := digitVal_digitChar hr9
  rw [pad2_eq h (by omega)]
  have hq : h / 10 = 0 ∨ h / 10 = 1 ∨ h / 10 = 2 := by omega
  rcases hq with hq | hq | hq
  · rw [hq, show digitChar 0 = '0' from rfl]
    simp [parseHour, hd0, hv0, show digitVal '0' = 0 from rfl]
    omega
  · rw [hq, show digitChar 1 = '1' from rfl]
    simp [parseHour, hd0, hv0, show digitVal '1' = 1 from rfl]
    omega
  · have hcase : h = 20 ∨ h = 21 ∨ h = 22 ∨ h = 23 := by omega
    rcases hcase with rfl | rfl | rfl | rfl <;>
      simp [parseHour, show digitChar 2 = '2' from rfl,
        show digitChar (20 % 10) = '0' from rfl,
        show digitChar (21 % 10) = '1' from rfl,
        show digitChar (22 % 10) = '2' from rfl,
        show digitChar (23 % 10) = '3' from rfl, digitVal]

theorem parseMin_pad2 {m : Nat} (r : Str) (hm : m ≤ 59) :
    parseMin (pad2 m ++ r) = some (m, r) := by
  have hq9 : m / 10 ≤ 9 := by omega
  have hr9 : m % 10 ≤ 9 := mod10_lt m
  have hq5 : m / 10 ≤ 5 := by omega
  rw [pad2_eq m (by omega)]
  simp [parseMin, digitChar_isDigit hq9, digitChar_isDigit hr9,
    digitVal_digitChar hq9, digitVal_digitChar hr9, hq5]
  omega

theorem parseSec_pad2 {s : Nat} (r : Str) (hs : s ≤ 59) :
    parseSec (pad2 s ++ r) = some (s, r) := by
  have hr9 : s % 10 ≤ 9 := mod10_lt s
  have hd0 : (digitChar (s % 10)).isDigit = true := digitChar_isDigit hr9
  have hv0 : digitVal (digitChar (s % 10)) = s % 10 := digitVal_digitChar hr9
  rw [pad2_eq s (by omega)]
  have hq : s / 10 = 0 ∨ s / 10 = 1 ∨ s / 10 = 2 ∨ s / 10 = 3 ∨ s / 10 = 4
      ∨ s / 10 = 5 := by omega
  rcases hq with hq | hq | hq | hq | hq | hq <;>
    rw [hq] <;>
    simp [parseSec, hd0, hv0, show digitChar 0 = '0' from rfl,
      show digitChar 1 = '1' from rfl, show digitChar 2 = '2' from rfl,
      show digitChar 3 = '3' from rfl, show digitChar 4 = '4' from rfl,
      show digitChar 5 = '5' from rfl, show digitVal '0' = 0 from rfl,
      show digitVal '1' = 1 from rfl, show digitVal '2' = 2 from rfl,
      show digitVal '3' = 3 from rfl, show digitVal '4' = 4 from rfl,
      show digitVal '5' = 5 from rfl] <;>
    omega

theorem natDigitsAux_all_digits : ∀ fuel n : Nat,
    (natDigitsAux fuel n).all Char.isDigit = true := by
  intro fuel
  induction fuel with
  | zero => intro n; rfl
  | succ fuel ih =>
    intro n
    unfold natDigitsAux
    by_cases h : n < 10
    · simp [h, digitChar_isDigit (by omega : n ≤ 9)]
    · simp only [h, if_false, List.all_append, ih (n / 10)]
      simp [digitChar_isDigit (mod10_lt n)]

theorem natDigits_all_digits (n : Nat) :
    (natDigits n).all Char.isDigit = true :=
  natDigitsAux_all_digits (n + 1) n

theorem natDigits_ne_nil (n : Nat) : natDigits n ≠ [] := by
  unfold natDigits natDigitsAux
  by_cases h : n < 10 <;> simp [h]

theorem natOfDigits_foldl (ys : Str) : ∀ a : Nat,
    ys.foldl (fun n c => n * 10 + digitVal c) a
      = a * 10 ^ ys.length + ys.foldl (fun n c => n * 10 + digitVal c) 0 := by
  induction ys with
  | nil => intro a; simp
  | cons c ys ih =>
    intro a
    simp only [List.foldl_cons, List.length_cons]
    rw [ih (a * 10 + digitVal c), ih (0 * 10 + digitVal c)]
    ring

theorem natOfDigits_append (xs ys : Str) :
    natOfDigits (xs ++ ys)
      = natOfDigits xs * 10 ^ ys.length + natOfDigits ys := by
  unfold natOfDigits
  rw [List.foldl_append, natOfDigits_foldl]

theorem natOfDigitsAux_correct : ∀ fuel n : Nat, n < fuel →
    natOfDigits (natDigitsAux fuel n) = n := by
  intro fuel
  induction fuel with
  | zero => omega
  | succ fuel ih =>
    intro n hn
    unfold natDigitsAux
    by_cases h : n < 10
    · simp only [h, if_true]
      simp [natOfDigits, digitVal_digitChar (by omega : n ≤ 9)]
    · have hlt : n / 10 < fuel := by
        have := Nat.div_lt_self (by omega : 0 < n) (by norm_num : 1 < 10)
        omega
      simp only [h, if_false]
      rw [natOfDigits_append, ih (n / 10) hlt]
      have : natOfDigits [digitChar (n % 10)] = n % 10 := by
        simp [natOfDigits, digitVal_digitChar (mod10_lt n)]
      rw [this]
      simp only [List.length_singleton, pow_one]
      omega

theorem natOfDigits_natDigits (n : Nat) : natOfDigits (natDigits n) = n :=
  natOfDigitsAux_correct (n + 1) n (by omega)

/-- Parsing back the formatted timestamp: `strptime` applied to
`strftime("%d/%b/%Y:%H:%M:%S")` output followed by the literal ` +0000`
recovers exactly the original naive fields with a zero offset. -/
theorem pythonStrptime_strftime {t : NaiveDT} (hv : ValidTs t) :
    pythonStrptime (strftimeLog t ++ ' ' :: [ '+', '0', '0', '0', '0'])
      = some ⟨t.year, t.month, t.day, t.hour, t.minute, t.second, 0⟩ := by
  obtain ⟨hy1, hy2, hm1, hm2, hd1, hd2, hh, hmi, hs⟩ := hv
  have hd31 : t.day ≤ 31 := le_trans hd2 (daysInMonth_le31 _ _)
  have hy1' : 1 ≤ t.year := by omega
  unfold strftimeLog
  simp only [List.append_assoc, List.cons_append]
  simp only [pythonStrptime, parseDay_pad2 _ hd1 hd31, expectC_cons,
    parseMonth_abbr _ hm1 hm2, parseYear4_pad4 _ hy1 hy2,
    parseHour_pad2 _ hh, parseMin_pad2 _ hmi, parseSec_pad2 _ hs]
  rw [show ((' ' :: [ '+', '0', '0', '0', '0'] : Str).takeWhile pyIsSpace)
      = [ ' '] from by decide,
    show ((' ' :: [ '+', '0', '0', '0', '0'] : Str).dropWhile pyIsSpace)
      = [ '+', '0', '0', '0', '0'] from by decide,
    show parseZOff [ '+', '0', '0', '0', '0'] = some (0, []) from by decide]
  simp [hy1', hd2, hs]

theorem strftimeLog_ne_nil (t : NaiveDT) : strftimeLog t ≠ [] := by
  simp [strftimeLog, pad2]



/-- C2 counterexample: `generate_bytes_sent` draws from
`np.random.normal(500, 100)` (and `normal(500000, 100000)`), which can
produce a negative integer; a line emitted with such a byte count (here
`-23`) does not match the `(\d+)` bytes group, so `parse_log_line` rejects
a synthesizer-emitted line. -/
theorem C2_counterexample :
    parse_log_line (generate_log_entry (("192.168.1.100").toList)
        (("GET").toList) (("/api/users").toList) 200 (-23) ([ '-'])
        chromeUA 45 ⟨2023, 10, 10, 13, 55, 36⟩)
      = ParseOutcome.noMatch := by
  decide

/-- C2 (amended): every emitted line whose sampled byte count is
non-negative parses back, reproducing the sampled method, endpoint, status,
bytes, response time, referrer, user agent, ip, and the timestamp to the
second (with the constant `+00:00` offset the line carries); negative
sampled byte counts — possible through the two normal-distribution size
branches — are the only violation of the round-trip. -/
theorem C2_amended_roundtrip (ip method endpoint : Str) (status : Nat)
    (bytesSent : Int) (referrer ua : Str) (rtime : Nat) (ts : NaiveDT)
    (hip1 : ip ≠ []) (hip2 : ip.all nonSpace = true)
    (hm : method ∈ methodsPool) (he : endpoint ∈ endpointsPool)
    (hst : status ∈ statusPool) (hb : 0 ≤ bytesSent)
    (href : referrer.all (fun c => c != '"') = true)
    (hua : ua ∈ userAgentsPool) (hts : ValidTs ts) :
    parse_log_line
        (generate_log_entry ip method endpoint status bytesSent referrer ua
          rtime ts)
      = ParseOutcome.ok
          { ip := ip, remote_log_name := [ '-'], user_id := [ '-'],
            datetime := mkUTC ts, method := method, api := endpoint,
            protocol := ("HTTP/1.1").toList, status := status,
            bytes_sent := bytesSent.toNat, referrer := referrer,
            ua_string := ua, response_time := rtime } := by
  have hmprops := (by decide :
    ∀ x ∈ methodsPool, x.all nonSpace = true ∧ x ≠ []) method hm
  have heprops := (by decide :
    ∀ x ∈ endpointsPool, x.all nonSpace = true ∧ x ≠ []) endpoint he
  have huaprops := (by decide :
    ∀ x ∈ userAgentsPool, x.all (fun c => c != '"') = true) ua hua
  have hstlen := (by decide :
    ∀ s ∈ statusPool, (natDigits s).length = 3) status hst
  obtain ⟨c1, c2, c3, hc⟩ := List.length_eq_three.mp hstlen
  have hcdig : (c1.isDigit && c2.isDigit && c3.isDigit) = true := by
    have := natDigits_all_digits status
    rw [hc] at this
    simpa [Bool.and_assoc] using this
  have hbytes : intDigits bytesSent = natDigits bytesSent.toNat := by
    unfold intDigits
    rw [if_neg (by omega)]
  have hline : generate_log_entry ip method endpoint status bytesSent
        referrer ua rtime ts
      = assembleLine ip [ '-'] [ '-'] (strftimeLog ts) ' ' '+' '0' '0' '0' '0'
          method endpoint (("HTTP/1.1").toList) c1 c2 c3
          (natDigits bytesSent.toNat) referrer ua (natDigits rtime)
          [ '\n'] := by
    unfold generate_log_entry assembleLine assembleTail
    rw [hbytes, hc]
    have l1 : (" - - [").toList = [ ' ', '-', ' ', '-', ' ', '['] := rfl
    have l2 : (" +0000] \"").toList
        = [ ' ', '+', '0', '0', '0', '0', ']', ' ', '"'] := rfl
    have l3 : (" HTTP/1.1\" ").toList
        = [ ' ', 'H', 'T', 'T', 'P', '/', '1', '.', '1', '"', ' '] := rfl
    have l4 : (" \"").toList = [ ' ', '"'] := rfl
    have l5 : ("\" \"").toList = [ '"', ' ', '"'] := rfl
    have l6 : ("\" ").toList = [ '"', ' '] := rfl
    have l7 : (("HTTP/1.1").toList : Str)
        = [ 'H', 'T', 'T', 'P', '/', '1', '.', '1'] := rfl
    rw [l1, l2, l3, l4, l5, l6, l7]
    simp
  rw [hline]
  unfold parse_log_line
  rw [reMatchLine_spec hip2 hip1 (by decide) (by decide) (by decide)
    (by decide) (strftimeLog_all_tsClass hts.2.2.1 hts.2.2.2.1)
    (strftimeLog_ne_nil ts) (by decide) (Or.inl rfl) (by decide)
    hmprops.1 hmprops.2 heprops.1 heprops.2 (by decide) (by decide)
    hcdig (natDigits_all_digits _) (natDigits_ne_nil _) href huaprops
    (natDigits_all_digits _) (natDigits_ne_nil _) (by decide)]
  simp only [pythonStrptime_strftime hts]
  rw [← hc]
  simp only [natOfDigits_natDigits]
  rfl

theorem C2_witness :
    parse_log_line (generate_log_entry (("10.0.0.50").toList)
        (("POST").toList) (("/api/cart").toList) 201 512
        (("https://example.com/ref").toList) chromeUA 88
        ⟨2025, 2, 28, 23, 59, 59⟩)
      = ParseOutcome.ok
          { ip := ("10.0.0.50").toList, remote_log_name := [ '-'],
            user_id := [ '-'], datetime := mkUTC ⟨2025, 2, 28, 23, 59, 59⟩,
            method := ("POST").toList, api := ("/api/cart").toList,
            protocol := ("HTTP/1.1").toList, status := 201,
            bytes_sent := (512 : Int).toNat,
            referrer := ("https://example.com/ref").toList,
            ua_string := chromeUA, response_time := 88 } :=
  C2_amended_roundtrip _ _ _ _ _ _ _ _ _ (by decide) (by decide) (by decide)
    (by decide) (by decide) (by decide) (by decide) (by decide) (by decide)

theorem C9_witness :
    parse_log_line (sampleLine ++ (" trailing #garbage").toList)
      = ParseOutcome.ok sampleRecord :=
  (C9_anchored_start_only sampleLine ((" trailing #garbage").toList)
    sampleRecord (by decide)).2 (by decide)
